import Mathlib

/-!
Shallow embedding of `datastreamer/streamclient.go` from the
zkevm-data-streamer repository: the stream client's command engine
(`execCommand`), wire-write helpers (`writeFullUint64` / `writeFullUint32` /
`writeFullBytes`), connection manager (`connectServer`), packet dispatcher
(`readEntries`, one iteration), and streaming consumer (`getStreaming`).

Conventions of the embedding:
* Go `uint64`/`uint32` values are `Nat`, reduced `% 2^64` / `% 2^32` exactly
  where the Go code can overflow (casts and increments).
* The TCP socket is modelled by an oracle: each write call either succeeds or
  fails with an I/O error, and a nil `net.Conn` is `Option.none`.
* Channel pops that block are modelled by supplying the value that the pop
  would return (foreground commands block until one arrives); the dispatcher's
  bounded channels are FIFO lists (push at the back, pop at the front).
* A Go runtime panic (nil-interface dereference) is the `Except.error` branch
  of `GoPanic`.
-/

namespace DataStreamer

/-- Modelled from the spec: the six command opcodes (Start, StartBookmark,
Stop, Header, Entry, Bookmark).  Their declarations live outside the provided
source file; the concrete numeric values are opaque to every claim, only their
distinctness matters, so distinct placeholder values are used. -/
def CmdStart : Nat := 1

/-- Modelled from the spec: see `CmdStart`. -/
def CmdStop : Nat := 2

/-- Modelled from the spec: see `CmdStart`. -/
def CmdHeader : Nat := 3

/-- Modelled from the spec: see `CmdStart`. -/
def CmdStartBookmark : Nat := 4

/-- Modelled from the spec: see `CmdStart`. -/
def CmdEntry : Nat := 5

/-- Modelled from the spec: see `CmdStart`. -/
def CmdBookmark : Nat := 6

/-- Modelled from the spec: `IsACommand` (declared outside the provided source
file) recognizes exactly the six known commands. -/
def IsACommand (cmd : Nat) : Bool :=
  cmd == CmdStart || cmd == CmdStop || cmd == CmdHeader ||
  cmd == CmdStartBookmark || cmd == CmdEntry || cmd == CmdBookmark

/-- Modelled from the spec: the OK sentinel among result error codes; any
other value is an application-level command failure. -/
def CmdErrOK : Nat := 0

/-- Modelled from the spec: the reserved entry-kind value signalling
"entry not found" in a data response. -/
def EntryTypeNotFound : Nat := 0xff

/-- Errors returned by the client code (`ErrExecCommandNotAllowed`,
`ErrInvalidCommand`, `ErrResultCommandError`, `ErrEntryNotFound`,
`ErrBookmarkNotFound`, `ErrNilConnection`, and an underlying I/O error from a
socket write). -/
inductive Err where
  | execCommandNotAllowed
  | invalidCommand
  | resultCommandError
  | entryNotFound
  | bookmarkNotFound
  | nilConnection
  | ioError
  deriving Repr, DecidableEq

/-- A Go runtime panic: dereferencing a nil `net.Conn` interface. -/
inductive GoPanic where
  | nilConnDereference
  deriving Repr, DecidableEq

/-- `ResultEntry`: error code plus error message bytes. -/
structure ResultEntry where
  errorNum : Nat
  errorStr : List Nat
  deriving Repr, DecidableEq

/-- `HeaderEntry`: the fields the client reads. -/
structure HeaderEntry where
  TotalEntries : Nat
  TotalLength : Nat
  Version : Nat
  SystemID : Nat
  deriving Repr, DecidableEq

/-- `FileEntry`: the fields the client reads (entry index `Number`, framed
length, entry-kind tag `entryType` — named `Type` in Go, a reserved word
here — and variable payload `Data`). -/
structure FileEntry where
  Number : Nat
  Length : Nat
  entryType : Nat
  Data : List Nat
  deriving Repr, DecidableEq

/-- The Go zero value `HeaderEntry{}`. -/
def emptyHeader : HeaderEntry := ⟨0, 0, 0, 0⟩

/-- The Go zero value `FileEntry{}`. -/
def emptyFileEntry : FileEntry := ⟨0, 0, 0, []⟩

/-- `StreamClient` state fields (the registered callback and relay reference
are passed explicitly to `getStreaming`; the four channels are modelled
separately where a claim needs them).  `conn` is `none` when the Go `net.Conn`
interface is nil; `ID` is the opaque identity token taken from the local
socket address. -/
structure StreamClient where
  server : Nat
  streamType : Nat
  conn : Option Unit
  ID : Nat
  started : Bool
  connected : Bool
  streaming : Bool
  fromStream : Nat
  totalEntries : Nat
  nextEntry : Nat
  deriving Repr, DecidableEq

/-- Big-endian 8-byte encoding (`binary.BigEndian.PutUint64`). -/
def be64 (v : Nat) : List Nat :=
  [v / 2 ^ 56 % 256, v / 2 ^ 48 % 256, v / 2 ^ 40 % 256, v / 2 ^ 32 % 256,
   v / 2 ^ 24 % 256, v / 2 ^ 16 % 256, v / 2 ^ 8 % 256, v % 256]

/-- Big-endian 4-byte encoding (`binary.BigEndian.PutUint32`). -/
def be32 (v : Nat) : List Nat :=
  [v / 2 ^ 24 % 256, v / 2 ^ 16 % 256, v / 2 ^ 8 % 256, v % 256]

/-- `writeFullUint64`.  `conn = none` is a nil `net.Conn`; `conn = some ok`
is a live connection on which this write call succeeds iff `ok`.  Returns the
bytes that reached the socket and the error returned, or a panic: on the
error path the code logs with `conn.RemoteAddr().String()`, which dereferences
`conn`, so a nil connection panics before `ErrNilConnection` can be
returned. -/
def writeFullUint64 (value : Nat) (conn : Option Bool) :
    Except GoPanic (List Nat × Option Err) :=
  let buffer := be64 (value % 2 ^ 64)
  let err : Option Err :=
    match conn with
    | some ok => if ok then none else some Err.ioError
    | none => some Err.nilConnection
  match err with
  | some e =>
      match conn with
      | some _ => Except.ok ([], some e)
      | none => Except.error GoPanic.nilConnDereference
  | none => Except.ok (buffer, none)

/-- `writeFullUint32`; same connection model and same nil-dereference on the
error-logging path as `writeFullUint64`. -/
def writeFullUint32 (value : Nat) (conn : Option Bool) :
    Except GoPanic (List Nat × Option Err) :=
  let buffer := be32 (value % 2 ^ 32)
  let err : Option Err :=
    match conn with
    | some ok => if ok then none else some Err.ioError
    | none => some Err.nilConnection
  match err with
  | some e =>
      match conn with
      | some _ => Except.ok ([], some e)
      | none => Except.error GoPanic.nilConnDereference
  | none => Except.ok (buffer, none)

/-- `writeFullBytes`; same connection model and same nil-dereference on the
error-logging path as `writeFullUint64`. -/
def writeFullBytes (buffer : List Nat) (conn : Option Bool) :
    Except GoPanic (List Nat × Option Err) :=
  let err : Option Err :=
    match conn with
    | some ok => if ok then none else some Err.ioError
    | none => some Err.nilConnection
  match err with
  | some e =>
      match conn with
      | some _ => Except.ok ([], some e)
      | none => Except.error GoPanic.nilConnDereference
  | none => Except.ok (buffer, none)

/-- Environment of one `execCommand` call: `wo n` tells whether the n-th
socket write of this call succeeds, and `result` / `hdr` / `ent` are the
values that a (blocking) pop from the results / headers / entryRsp channel
would return. -/
structure ExecEnv where
  wo : Nat → Bool
  result : ResultEntry
  hdr : HeaderEntry
  ent : FileEntry

/-- Outcome of one `execCommand` call: the updated client, the byte chunks
that reached the socket in order, the Go return values `(header, entry, err)`,
and how many values were popped from each channel. -/
structure ExecResult where
  client : StreamClient
  sent : List (List Nat)
  header : HeaderEntry
  entry : FileEntry
  err : Option Err
  resultsPopped : Nat
  headersPopped : Nat
  entriesPopped : Nat
  deriving Repr, DecidableEq

/-- The `switch cmd` block of `execCommand` that sends the command-specific
parameters (writes number 2 and possibly 3 of the call).  Returns the
successfully sent chunks and the first write error, or propagates a panic. -/
def sendCmdParams (c : StreamClient) (cmd : Nat) (fromEntry : Nat)
    (fromBookmark : List Nat) (env : ExecEnv) :
    Except GoPanic (List (List Nat) × Option Err) :=
  if cmd == CmdStart then
    match writeFullUint64 fromEntry (c.conn.map fun _ => env.wo 2) with
    | Except.error p => Except.error p
    | Except.ok (_, some e) => Except.ok ([], some e)
    | Except.ok (b, none) => Except.ok ([b], none)
  else if cmd == CmdStartBookmark then
    match writeFullUint32 fromBookmark.length (c.conn.map fun _ => env.wo 2) with
    | Except.error p => Except.error p
    | Except.ok (_, some e) => Except.ok ([], some e)
    | Except.ok (b2, none) =>
      match writeFullBytes fromBookmark (c.conn.map fun _ => env.wo 3) with
      | Except.error p => Except.error p
      | Except.ok (_, some e) => Except.ok ([b2], some e)
      | Except.ok (b3, none) => Except.ok ([b2, b3], none)
  else if cmd == CmdEntry then
    match writeFullUint64 fromEntry (c.conn.map fun _ => env.wo 2) with
    | Except.error p => Except.error p
    | Except.ok (_, some e) => Except.ok ([], some e)
    | Except.ok (b, none) => Except.ok ([b], none)
  else if cmd == CmdBookmark then
    match writeFullUint32 fromBookmark.length (c.conn.map fun _ => env.wo 2) with
    | Except.error p => Except.error p
    | Except.ok (_, some e) => Except.ok ([], some e)
    | Except.ok (b2, none) =>
      match writeFullBytes fromBookmark (c.conn.map fun _ => env.wo 3) with
      | Except.error p => Except.error p
      | Except.ok (_, some e) => Except.ok ([b2], some e)
      | Except.ok (b3, none) => Except.ok ([b2, b3], none)
  else
    Except.ok ([], none)

/-- `execCommand`: status checks, command/stream-type/parameter writes,
optional blocking result await (skipped when `deferredResult`), then the
command-specific post-processing switch. -/
def execCommand (c : StreamClient) (cmd : Nat) (deferredResult : Bool)
    (fromEntry : Nat) (fromBookmark : List Nat) (env : ExecEnv) :
    Except GoPanic ExecResult :=
  if !c.started then
    Except.ok ⟨c, [], emptyHeader, emptyFileEntry, some Err.execCommandNotAllowed, 0, 0, 0⟩
  else if !IsACommand cmd then
    Except.ok ⟨c, [], emptyHeader, emptyFileEntry, some Err.invalidCommand, 0, 0, 0⟩
  else
    match writeFullUint64 cmd (c.conn.map fun _ => env.wo 0) with
    | Except.error p => Except.error p
    | Except.ok (_, some e) =>
        Except.ok ⟨c, [], emptyHeader, emptyFileEntry, some e, 0, 0, 0⟩
    | Except.ok (b0, none) =>
      match writeFullUint64 c.streamType (c.conn.map fun _ => env.wo 1) with
      | Except.error p => Except.error p
      | Except.ok (_, some e) =>
          Except.ok ⟨c, [b0], emptyHeader, emptyFileEntry, some e, 0, 0, 0⟩
      | Except.ok (b1, none) =>
        match sendCmdParams c cmd fromEntry fromBookmark env with
        | Except.error p => Except.error p
        | Except.ok (params, some e) =>
            Except.ok ⟨c, b0 :: b1 :: params, emptyHeader, emptyFileEntry, some e, 0, 0, 0⟩
        | Except.ok (params, none) =>
          let sent := b0 :: b1 :: params
          if !deferredResult && env.result.errorNum != CmdErrOK then
            Except.ok ⟨c, sent, emptyHeader, emptyFileEntry, some Err.resultCommandError, 1, 0, 0⟩
          else
            let popped : Nat := if deferredResult then 0 else 1
            if cmd == CmdStart then
              Except.ok ⟨{ c with streaming := true, fromStream := fromEntry },
                sent, emptyHeader, emptyFileEntry, none, popped, 0, 0⟩
            else if cmd == CmdStartBookmark then
              Except.ok ⟨{ c with streaming := true },
                sent, emptyHeader, emptyFileEntry, none, popped, 0, 0⟩
            else if cmd == CmdStop then
              Except.ok ⟨{ c with streaming := false },
                sent, emptyHeader, emptyFileEntry, none, popped, 0, 0⟩
            else if cmd == CmdHeader then
              Except.ok ⟨{ c with totalEntries := env.hdr.TotalEntries },
                sent, env.hdr, emptyFileEntry, none, popped, 1, 0⟩
            else if cmd == CmdEntry then
              if env.ent.entryType == EntryTypeNotFound then
                Except.ok ⟨c, sent, emptyHeader, emptyFileEntry, some Err.entryNotFound, popped, 0, 1⟩
              else
                Except.ok ⟨c, sent, emptyHeader, env.ent, none, popped, 0, 1⟩
            else
              if env.ent.entryType == EntryTypeNotFound then
                Except.ok ⟨c, sent, emptyHeader, emptyFileEntry, some Err.bookmarkNotFound, popped, 0, 1⟩
              else
                Except.ok ⟨c, sent, emptyHeader, env.ent, none, popped, 0, 1⟩

/-- `closeConnection`: closes the socket if non-nil (a no-op on the state we
track) and always clears the `connected` flag. -/
def closeConnection (c : StreamClient) : StreamClient :=
  { c with connected := false }

/-- `getStreaming`, run on a finite prefix of the streaming data queue (the
Go loop is infinite and blocks on an empty channel; an exhausted list models
"still blocked waiting").  `cb` is the registered `processEntry` callback and
`relayServer` the optional relay reference, both fields of the Go client.
Returns the final client, the callback error that terminated the loop (if
any), and the trace of processed entries paired with the client state passed
to the callback for that entry. -/
def getStreaming (cb : FileEntry → StreamClient → Option Unit → Option Nat)
    (relayServer : Option Unit) :
    StreamClient → List FileEntry →
      StreamClient × Option Nat × List (FileEntry × StreamClient)
  | c, [] => (c, none, [])
  | c, e :: rest =>
    let c1 := { c with nextEntry := (e.Number + 1) % 2 ^ 64 }
    match cb e c1 relayServer with
    | some err => (c1, some err, [(e, c1)])
    | none =>
      let r := getStreaming cb relayServer c1 rest
      (r.1, r.2.1, (e, c1) :: r.2.2)

/-- One successful `net.Dial` in `connectServer`: the identity token taken
from the local socket address, and the write oracle for the deferred resume
command sent on the fresh socket. -/
structure DialOk where
  id : Nat
  wo : Nat → Bool

/-- Outcome of `connectServer` on a finite list of dial attempts: `result` is
`some (client, pending)` when the function returned (`pending` is its Boolean
return value), `none` when the attempt list was exhausted while the retry
loop was still running; `sent` collects every byte chunk written across the
attempts and `sleeps` counts the fixed-delay waits. -/
structure ConnectOutcome where
  result : Option (StreamClient × Bool)
  sent : List (List Nat)
  sleeps : Nat
  deriving Repr, DecidableEq

/-- `connectServer`: loops while not connected; a failed dial sleeps the
fixed delay and retries; on success it marks the client connected, records
its identity, and — if `streaming` is set — sends a deferred `CmdStart`
carrying `nextEntry`, returning `true` on success and closing/sleeping/
retrying if that send fails; when not streaming it returns `false`.  The
function returns no error value (the Go signature is `bool` only). -/
def connectServer (c : StreamClient) (attempts : List (Option DialOk)) :
    Except GoPanic ConnectOutcome :=
  if c.connected then Except.ok ⟨some (c, false), [], 0⟩
  else
    match attempts with
    | [] => Except.ok ⟨none, [], 0⟩
    | none :: rest =>
      match connectServer c rest with
      | Except.error p => Except.error p
      | Except.ok o => Except.ok ⟨o.result, o.sent, o.sleeps + 1⟩
    | some d :: rest =>
      let c1 := { c with conn := some (), connected := true, ID := d.id }
      if c1.streaming then
        match execCommand c1 CmdStart true c1.nextEntry []
            ⟨d.wo, ⟨0, []⟩, emptyHeader, emptyFileEntry⟩ with
        | Except.error p => Except.error p
        | Except.ok r =>
          match r.err with
          | some _ =>
            match connectServer { r.client with connected := false } rest with
            | Except.error p => Except.error p
            | Except.ok o => Except.ok ⟨o.result, r.sent ++ o.sent, o.sleeps + 1⟩
          | none => Except.ok ⟨some (r.client, true), r.sent, 0⟩
      else Except.ok ⟨some (c1, false), [], 0⟩

/-- The dispatcher's view of the client: the client state plus the four
bounded channels as FIFO lists (head = oldest element). -/
structure DispatchState where
  client : StreamClient
  results : List ResultEntry
  headers : List HeaderEntry
  entries : List FileEntry
  entryRsp : List FileEntry
  deriving Repr, DecidableEq

/-- One inbound read in a `readEntries` iteration: a decoded packet by type
tag, an unknown tag, or a failed read/decode (short read, EOF, malformed
length — all handled identically by the code). -/
inductive Packet where
  | result (r : ResultEntry)
  | dataRsp (e : FileEntry)
  | headerPkt (h : HeaderEntry)
  | data (e : FileEntry)
  | unknownTag (b : Nat)
  | readFailure
  deriving Repr, DecidableEq

/-- How a `readEntries` iteration ended: normally (`looped`), by closing the
connection and continuing (`closedRetry`, reconnect happens at the top of the
next iteration), or by closing, sleeping the fixed delay, and continuing
(`closedWaitRetry`, the failed-deferred-resume path). -/
inductive DispatchAction where
  | looped
  | closedRetry
  | closedWaitRetry
  deriving Repr, DecidableEq

/-- One iteration of the `readEntries` dispatcher loop after `connectServer`
returned `deferredResult` and the inbound read produced `p`: route the packet
to its queue; for a `Result` packet, push it and — when a deferred resume is
outstanding — pop one result back (FIFO head) and treat a non-OK code as a
failed resume. -/
def readEntriesStep (deferredResult : Bool) (p : Packet) (s : DispatchState) :
    DispatchState × DispatchAction :=
  match p with
  | Packet.readFailure =>
      ({ s with client := closeConnection s.client }, DispatchAction.closedRetry)
  | Packet.result r =>
    let q := s.results ++ [r]
    if deferredResult then
      match q with
      | [] => (s, DispatchAction.looped)
      | rd :: qrest =>
        if rd.errorNum != CmdErrOK then
          ({ s with client := closeConnection s.client, results := qrest },
           DispatchAction.closedWaitRetry)
        else
          ({ s with results := qrest }, DispatchAction.looped)
    else ({ s with results := q }, DispatchAction.looped)
  | Packet.dataRsp e => ({ s with entryRsp := s.entryRsp ++ [e] }, DispatchAction.looped)
  | Packet.headerPkt h => ({ s with headers := s.headers ++ [h] }, DispatchAction.looped)
  | Packet.data e => ({ s with entries := s.entries ++ [e] }, DispatchAction.looped)
  | Packet.unknownTag _ => (s, DispatchAction.looped)

/-- Consecutive delivery starting at cursor `k`: the i-th entry of the list
has `Number = k + i` (the shape of a single logical stream resumed at `k`). -/
def consecutiveFrom : Nat → List FileEntry → Bool
  | _, [] => true
  | k, e :: rest => e.Number == k && consecutiveFrom (k + 1) rest

/-- A started, connected, streaming client used to instantiate theorems. -/
def cDemo : StreamClient := ⟨0, 7, some (), 1, true, true, true, 3, 0, 42⟩

/-- A started, connected client that is not streaming. -/
def cIdle : StreamClient := ⟨0, 7, some (), 1, true, true, false, 3, 0, 42⟩

/-- A freshly constructed client that has not been started. -/
def cOff : StreamClient := ⟨0, 7, some (), 1, false, false, false, 0, 0, 0⟩

/-- Environment: all writes succeed, OK result, sample header and entry. -/
def envOKDemo : ExecEnv := ⟨fun _ => true, ⟨0, []⟩, ⟨9, 1, 2, 3⟩, ⟨11, 40, 2, [5]⟩⟩

/-- Environment: all writes succeed but the awaited result is non-OK. -/
def envErrDemo : ExecEnv := ⟨fun _ => true, ⟨3, [1]⟩, ⟨9, 1, 2, 3⟩, ⟨11, 40, 2, [5]⟩⟩

/-- Environment: all writes succeed, OK result, data response carrying the
"not found" entry kind. -/
def envNF : ExecEnv := ⟨fun _ => true, ⟨0, []⟩, ⟨9, 1, 2, 3⟩, ⟨11, 40, 0xff, []⟩⟩

/-- Environment in which every socket write fails. -/
def envW0 : ExecEnv := ⟨fun _ => false, ⟨0, []⟩, ⟨9, 1, 2, 3⟩, ⟨11, 40, 2, [5]⟩⟩

/-- Environment in which only the first socket write succeeds. -/
def envW1 : ExecEnv := ⟨fun n => n == 0, ⟨0, []⟩, ⟨9, 1, 2, 3⟩, ⟨11, 40, 2, [5]⟩⟩

/-- A dial attempt that succeeds and whose subsequent writes succeed. -/
def dOK : DialOk := ⟨77, fun _ => true⟩

/-- A dial attempt that succeeds but whose subsequent writes all fail. -/
def dBad : DialOk := ⟨77, fun _ => false⟩

theorem writeFullUint64_some (v : Nat) (ok : Bool) :
    writeFullUint64 v (some ok) =
      if ok then Except.ok (be64 (v % 2 ^ 64), none)
      else Except.ok ([], some Err.ioError) := by
  cases ok <;> rfl

theorem writeFullUint32_some (v : Nat) (ok : Bool) :
    writeFullUint32 v (some ok) =
      if ok then Except.ok (be32 (v % 2 ^ 32), none)
      else Except.ok ([], some Err.ioError) := by
  cases ok <;> rfl

theorem writeFullBytes_some (buffer : List Nat) (ok : Bool) :
    writeFullBytes buffer (some ok) =
      if ok then Except.ok (buffer, none)
      else Except.ok ([], some Err.ioError) := by
  cases ok <;> rfl

/-- C10.  The claim says the three write helpers return the nil-connection
error, write nothing and do not crash when the connection is nil.  The code
contradicts its own nil-check: after assigning `ErrNilConnection` it logs
with `conn.RemoteAddr().String()`, dereferencing the nil `net.Conn`
interface, so all three helpers panic on a nil connection instead of
returning the error (nothing is written: the panic precedes any socket
use). -/
theorem writeFull_nil_connection_panics (v : Nat) (buffer : List Nat) :
    writeFullUint64 v none = Except.error GoPanic.nilConnDereference ∧
    writeFullUint32 v none = Except.error GoPanic.nilConnDereference ∧
    writeFullBytes buffer none = Except.error GoPanic.nilConnDereference :=
  ⟨rfl, rfl, rfl⟩

/-- C7.  A command issued while `started = false` fails with the
"not allowed" error, and an unrecognized command value issued while started
fails with the "invalid command" error; in both cases nothing is written to
the socket, no channel is consumed, and the client state is unchanged. -/
theorem execCommand_not_started_invalid
    (c : StreamClient) (cmd : Nat) (d : Bool) (fe : Nat) (bk : List Nat)
    (env : ExecEnv) :
    (c.started = false →
      execCommand c cmd d fe bk env =
        Except.ok ⟨c, [], emptyHeader, emptyFileEntry,
          some Err.execCommandNotAllowed, 0, 0, 0⟩) ∧
    (c.started = true → IsACommand cmd = false →
      execCommand c cmd d fe bk env =
        Except.ok ⟨c, [], emptyHeader, emptyFileEntry,
          some Err.invalidCommand, 0, 0, 0⟩) := by
  constructor
  · intro h
    simp [execCommand, h]
  · intro h1 h2
    simp [execCommand, h1, h2]

theorem execCommand_not_started_invalid_witness :
    (execCommand cOff CmdStart false 10 [] envOKDemo =
      Except.ok ⟨cOff, [], emptyHeader, emptyFileEntry,
        some Err.execCommandNotAllowed, 0, 0, 0⟩) ∧
    (execCommand cDemo 99 false 10 [] envOKDemo =
      Except.ok ⟨cDemo, [], emptyHeader, emptyFileEntry,
        some Err.invalidCommand, 0, 0, 0⟩) :=
  ⟨(execCommand_not_started_invalid cOff CmdStart false 10 [] envOKDemo).1 rfl,
   (execCommand_not_started_invalid cDemo 99 false 10 [] envOKDemo).2 rfl (by decide)⟩

/-- C5.  After a successful non-deferred command (all writes succeed, the
awaited result is OK): Start sets `streaming = true` and `fromStream` to the
requested entry; StartBookmark sets `streaming = true` leaving `fromStream`
unchanged; Stop sets `streaming = false`; Header returns the received header
and records its `TotalEntries`; Entry and Bookmark return the received data
response when its kind is not the "not found" sentinel. -/
theorem execCommand_success_postprocessing
    (c : StreamClient) (fe : Nat) (bk : List Nat) (env : ExecEnv)
    (hs : c.started = true) (hc : c.conn = some ())
    (hw : ∀ n, env.wo n = true) (hok : env.result.errorNum = CmdErrOK) :
    (execCommand c CmdStart false fe bk env =
      Except.ok ⟨{ c with streaming := true, fromStream := fe },
        [be64 (CmdStart % 2 ^ 64), be64 (c.streamType % 2 ^ 64), be64 (fe % 2 ^ 64)],
        emptyHeader, emptyFileEntry, none, 1, 0, 0⟩) ∧
    (execCommand c CmdStartBookmark false fe bk env =
      Except.ok ⟨{ c with streaming := true },
        [be64 (CmdStartBookmark % 2 ^ 64), be64 (c.streamType % 2 ^ 64),
         be32 (bk.length % 2 ^ 32), bk],
        emptyHeader, emptyFileEntry, none, 1, 0, 0⟩) ∧
    (execCommand c CmdStop false fe bk env =
      Except.ok ⟨{ c with streaming := false },
        [be64 (CmdStop % 2 ^ 64), be64 (c.streamType % 2 ^ 64)],
        emptyHeader, emptyFileEntry, none, 1, 0, 0⟩) ∧
    (execCommand c CmdHeader false fe bk env =
      Except.ok ⟨{ c with totalEntries := env.hdr.TotalEntries },
        [be64 (CmdHeader % 2 ^ 64), be64 (c.streamType % 2 ^ 64)],
        env.hdr, emptyFileEntry, none, 1, 1, 0⟩) ∧
    (env.ent.entryType ≠ EntryTypeNotFound →
      execCommand c CmdEntry false fe bk env =
        Except.ok ⟨c,
          [be64 (CmdEntry % 2 ^ 64), be64 (c.streamType % 2 ^ 64), be64 (fe % 2 ^ 64)],
          emptyHeader, env.ent, none, 1, 0, 1⟩) ∧
    (env.ent.entryType ≠ EntryTypeNotFound →
      execCommand c CmdBookmark false fe bk env =
        Except.ok ⟨c,
          [be64 (CmdBookmark % 2 ^ 64), be64 (c.streamType % 2 ^ 64),
           be32 (bk.length % 2 ^ 32), bk],
          emptyHeader, env.ent, none, 1, 0, 1⟩) := by
  refine ⟨?_, ?_, ?_, ?_, ?_, ?_⟩ <;>
    simp [execCommand, sendCmdParams, hs, hc, hw, hok,
      writeFullUint64_some, writeFullUint32_some, writeFullBytes_some,
      IsACommand, CmdStart, CmdStartBookmark, CmdStop, CmdHeader,
      CmdEntry, CmdBookmark, CmdErrOK]

theorem execCommand_success_postprocessing_witness :
    execCommand cDemo CmdStart false 10 [] envOKDemo =
      Except.ok ⟨{ cDemo with streaming := true, fromStream := 10 },
        [be64 (CmdStart % 2 ^ 64), be64 (cDemo.streamType % 2 ^ 64), be64 (10 % 2 ^ 64)],
        emptyHeader, emptyFileEntry, none, 1, 0, 0⟩ :=
  (execCommand_success_postprocessing cDemo 10 [] envOKDemo rfl rfl
    (fun _ => rfl) rfl).1

/-- C8.  For a successful non-deferred Entry command whose data response
carries the "not found" entry-kind tag, `execCommand` returns
`ErrEntryNotFound` and the zero entry instead of the raw response; a Bookmark
command in the same situation returns `ErrBookmarkNotFound`; when the kind is
not the sentinel the received entry itself is returned with no error. -/
theorem execCommand_not_found_errors
    (c : StreamClient) (fe : Nat) (bk : List Nat) (env : ExecEnv)
    (hs : c.started = true) (hc : c.conn = some ())
    (hw : ∀ n, env.wo n = true) (hok : env.result.errorNum = CmdErrOK) :
    (env.ent.entryType = EntryTypeNotFound →
      execCommand c CmdEntry false fe bk env =
        Except.ok ⟨c,
          [be64 (CmdEntry % 2 ^ 64), be64 (c.streamType % 2 ^ 64), be64 (fe % 2 ^ 64)],
          emptyHeader, emptyFileEntry, some Err.entryNotFound, 1, 0, 1⟩) ∧
    (env.ent.entryType = EntryTypeNotFound →
      execCommand c CmdBookmark false fe bk env =
        Except.ok ⟨c,
          [be64 (CmdBookmark % 2 ^ 64), be64 (c.streamType % 2 ^ 64),
           be32 (bk.length % 2 ^ 32), bk],
          emptyHeader, emptyFileEntry, some Err.bookmarkNotFound, 1, 0, 1⟩) ∧
    (env.ent.entryType ≠ EntryTypeNotFound →
      execCommand c CmdEntry false fe bk env =
        Except.ok ⟨c,
          [be64 (CmdEntry % 2 ^ 64), be64 (c.streamType % 2 ^ 64), be64 (fe % 2 ^ 64)],
          emptyHeader, env.ent, none, 1, 0, 1⟩) ∧
    (env.ent.entryType ≠ EntryTypeNotFound →
      execCommand c CmdBookmark false fe bk env =
        Except.ok ⟨c,
          [be64 (CmdBookmark % 2 ^ 64), be64 (c.streamType % 2 ^ 64),
           be32 (bk.length % 2 ^ 32), bk],
          emptyHeader, env.ent, none, 1, 0, 1⟩) := by
  refine ⟨?_, ?_, ?_, ?_⟩ <;>
    simp [execCommand, sendCmdParams, hs, hc, hw, hok,
      writeFullUint64_some, writeFullUint32_some, writeFullBytes_some,
      IsACommand, CmdStart, CmdStartBookmark, CmdStop, CmdHeader,
      CmdEntry, CmdBookmark, CmdErrOK]

theorem execCommand_not_found_errors_witness :
    execCommand cDemo CmdEntry false 10 [] envNF =
      Except.ok ⟨cDemo,
        [be64 (CmdEntry % 2 ^ 64), be64 (cDemo.streamType % 2 ^ 64), be64 (10 % 2 ^ 64)],
        emptyHeader, emptyFileEntry, some Err.entryNotFound, 1, 0, 1⟩ :=
  (execCommand_not_found_errors cDemo 10 [] envNF rfl rfl (fun _ => rfl) rfl).1 rfl

/-- C6.  For every valid non-deferred command whose awaited result is
non-OK, `execCommand` returns `ErrResultCommandError` after popping exactly
that one result, performs no command-specific post-processing (the client —
in particular `streaming`, `fromStream`, `totalEntries` — is unchanged and no
header or data response is consumed); a deferred Start instead mutates
`streaming`/`fromStream` immediately upon send, popping no result at all. -/
theorem execCommand_result_error_and_deferred
    (c : StreamClient) (cmd : Nat) (fe : Nat) (bk : List Nat) (env : ExecEnv)
    (hs : c.started = true) (hc : c.conn = some ())
    (hw : ∀ n, env.wo n = true) :
    (IsACommand cmd = true → env.result.errorNum ≠ CmdErrOK →
      Except.map (fun r => (r.client, r.header, r.entry, r.err, r.resultsPopped,
          r.headersPopped, r.entriesPopped))
        (execCommand c cmd false fe bk env) =
      Except.ok (c, emptyHeader, emptyFileEntry, some Err.resultCommandError,
        1, 0, 0)) ∧
    (execCommand c CmdStart true fe bk env =
      Except.ok ⟨{ c with streaming := true, fromStream := fe },
        [be64 (CmdStart % 2 ^ 64), be64 (c.streamType % 2 ^ 64), be64 (fe % 2 ^ 64)],
        emptyHeader, emptyFileEntry, none, 0, 0, 0⟩) := by
  constructor
  · intro hcmd hbad
    have hbad0 : ¬(env.result.errorNum = 0) := by simpa [CmdErrOK] using hbad
    simp only [IsACommand, Bool.or_eq_true, beq_iff_eq] at hcmd
    rcases hcmd with ((((h | h) | h) | h) | h) | h <;> subst h <;>
      simp [execCommand, sendCmdParams, Except.map, hs, hc, hw, hbad0,
        writeFullUint64_some, writeFullUint32_some, writeFullBytes_some,
        IsACommand, CmdStart, CmdStartBookmark, CmdStop, CmdHeader,
        CmdEntry, CmdBookmark, CmdErrOK]
  · simp [execCommand, sendCmdParams, hs, hc, hw,
      writeFullUint64_some, writeFullUint32_some, writeFullBytes_some,
      IsACommand, CmdStart, CmdStartBookmark, CmdStop, CmdHeader,
      CmdEntry, CmdBookmark, CmdErrOK]

theorem execCommand_result_error_and_deferred_witness :
    Except.map (fun r => (r.client, r.header, r.entry, r.err, r.resultsPopped,
        r.headersPopped, r.entriesPopped))
      (execCommand cDemo CmdStop false 10 [] envErrDemo) =
    Except.ok (cDemo, emptyHeader, emptyFileEntry, some Err.resultCommandError,
      1, 0, 0) :=
  (execCommand_result_error_and_deferred cDemo CmdStop 10 [] envErrDemo rfl rfl
    (fun _ => rfl)).1 (by decide) (by decide)

/-- C9.  For every valid command issued while started (writes succeeding,
result OK), `execCommand` writes, in order: the 8-byte big-endian opcode, the
8-byte big-endian stream-type tag, then the command parameters — an 8-byte
big-endian entry index for Start and Entry, a 4-byte big-endian length
followed by the raw bookmark bytes for StartBookmark and Bookmark, nothing
for Stop and Header; and a write failure (at the first, second, or a
parameter position) aborts the command, propagating the underlying I/O
error with no further writes. -/
theorem execCommand_wire_format
    (c : StreamClient) (d : Bool) (fe : Nat) (bk : List Nat) (cmd0 : Nat)
    (env : ExecEnv)
    (hs : c.started = true) (hc : c.conn = some ())
    (hw : ∀ n, env.wo n = true) (hok : env.result.errorNum = CmdErrOK) :
    (Except.map (fun r => r.sent) (execCommand c CmdStart d fe bk env) =
      Except.ok [be64 (CmdStart % 2 ^ 64), be64 (c.streamType % 2 ^ 64),
        be64 (fe % 2 ^ 64)]) ∧
    (Except.map (fun r => r.sent) (execCommand c CmdEntry d fe bk env) =
      Except.ok [be64 (CmdEntry % 2 ^ 64), be64 (c.streamType % 2 ^ 64),
        be64 (fe % 2 ^ 64)]) ∧
    (Except.map (fun r => r.sent) (execCommand c CmdStartBookmark d fe bk env) =
      Except.ok [be64 (CmdStartBookmark % 2 ^ 64), be64 (c.streamType % 2 ^ 64),
        be32 (bk.length % 2 ^ 32), bk]) ∧
    (Except.map (fun r => r.sent) (execCommand c CmdBookmark d fe bk env) =
      Except.ok [be64 (CmdBookmark % 2 ^ 64), be64 (c.streamType % 2 ^ 64),
        be32 (bk.length % 2 ^ 32), bk]) ∧
    (Except.map (fun r => r.sent) (execCommand c CmdStop d fe bk env) =
      Except.ok [be64 (CmdStop % 2 ^ 64), be64 (c.streamType % 2 ^ 64)]) ∧
    (Except.map (fun r => r.sent) (execCommand c CmdHeader d fe bk env) =
      Except.ok [be64 (CmdHeader % 2 ^ 64), be64 (c.streamType % 2 ^ 64)]) ∧
    (∀ env0 : ExecEnv, IsACommand cmd0 = true → env0.wo 0 = false →
      Except.map (fun r => (r.sent, r.err)) (execCommand c cmd0 d fe bk env0) =
        Except.ok ([], some Err.ioError)) ∧
    (∀ env1 : ExecEnv, IsACommand cmd0 = true →
      env1.wo 0 = true → env1.wo 1 = false →
      Except.map (fun r => (r.sent, r.err)) (execCommand c cmd0 d fe bk env1) =
        Except.ok ([be64 (cmd0 % 2 ^ 64)], some Err.ioError)) ∧
    (∀ env2 : ExecEnv, env2.wo 0 = true → env2.wo 1 = true → env2.wo 2 = false →
      Except.map (fun r => (r.sent, r.err)) (execCommand c CmdStart d fe bk env2) =
        Except.ok ([be64 (CmdStart % 2 ^ 64), be64 (c.streamType % 2 ^ 64)],
          some Err.ioError)) := by
  refine ⟨?_, ?_, ?_, ?_, ?_, ?_, ?_, ?_, ?_⟩
  · cases d <;>
      simp [execCommand, sendCmdParams, Except.map, hs, hc, hw, hok,
        writeFullUint64_some, writeFullUint32_some, writeFullBytes_some,
        IsACommand, CmdStart, CmdStartBookmark, CmdStop, CmdHeader,
        CmdEntry, CmdBookmark, CmdErrOK]
  · cases d <;> by_cases hnf : env.ent.entryType = EntryTypeNotFound <;>
      simp [execCommand, sendCmdParams, Except.map, hs, hc, hw, hok, hnf,
        writeFullUint64_some, writeFullUint32_some, writeFullBytes_some,
        IsACommand, CmdStart, CmdStartBookmark, CmdStop, CmdHeader,
        CmdEntry, CmdBookmark, CmdErrOK]
  · cases d <;>
      simp [execCommand, sendCmdParams, Except.map, hs, hc, hw, hok,
        writeFullUint64_some, writeFullUint32_some, writeFullBytes_some,
        IsACommand, CmdStart, CmdStartBookmark, CmdStop, CmdHeader,
        CmdEntry, CmdBookmark, CmdErrOK]
  · cases d <;> by_cases hnf : env.ent.entryType = EntryTypeNotFound <;>
      simp [execCommand, sendCmdParams, Except.map, hs, hc, hw, hok, hnf,
        writeFullUint64_some, writeFullUint32_some, writeFullBytes_some,
        IsACommand, CmdStart, CmdStartBookmark, CmdStop, CmdHeader,
        CmdEntry, CmdBookmark, CmdErrOK]
  · cases d <;>
      simp [execCommand, sendCmdParams, Except.map, hs, hc, hw, hok,
        writeFullUint64_some, writeFullUint32_some, writeFullBytes_some,
        IsACommand, CmdStart, CmdStartBookmark, CmdStop, CmdHeader,
        CmdEntry, CmdBookmark, CmdErrOK]
  · cases d <;>
      simp [execCommand, sendCmdParams, Except.map, hs, hc, hw, hok,
        writeFullUint64_some, writeFullUint32_some, writeFullBytes_some,
        IsACommand, CmdStart, CmdStartBookmark, CmdStop, CmdHeader,
        CmdEntry, CmdBookmark, CmdErrOK]
  · intro env0 hcmd hw0
    simp only [IsACommand, Bool.or_eq_true, beq_iff_eq] at hcmd
    rcases hcmd with ((((h | h) | h) | h) | h) | h <;> subst h <;>
      simp [execCommand, sendCmdParams, Except.map, hs, hc, hw0,
        writeFullUint64_some, writeFullUint32_some, writeFullBytes_some,
        IsACommand, CmdStart, CmdStartBookmark, CmdStop, CmdHeader,
        CmdEntry, CmdBookmark]
  · intro env1 hcmd hw0 hw1
    simp only [IsACommand, Bool.or_eq_true, beq_iff_eq] at hcmd
    rcases hcmd with ((((h | h) | h) | h) | h) | h <;> subst h <;>
      simp [execCommand, sendCmdParams, Except.map, hs, hc, hw0, hw1,
        writeFullUint64_some, writeFullUint32_some, writeFullBytes_some,
        IsACommand, CmdStart, CmdStartBookmark, CmdStop, CmdHeader,
        CmdEntry, CmdBookmark]
  · intro env2 hw0 hw1 hw2
    simp [execCommand, sendCmdParams, Except.map, hs, hc, hw0, hw1, hw2,
      writeFullUint64_some, writeFullUint32_some, writeFullBytes_some,
      IsACommand, CmdStart, CmdStartBookmark, CmdStop, CmdHeader,
      CmdEntry, CmdBookmark]

theorem execCommand_wire_format_witness :
    Except.map (fun r => r.sent) (execCommand cDemo CmdStartBookmark false 10 [1, 2, 3] envOKDemo) =
      Except.ok [be64 (CmdStartBookmark % 2 ^ 64), be64 (cDemo.streamType % 2 ^ 64),
        be32 ((3 : Nat) % 2 ^ 32), [1, 2, 3]] := by
  have h := (execCommand_wire_format cDemo false 10 [1, 2, 3] CmdStop envOKDemo
    rfl rfl (fun _ => rfl) rfl).2.2.1
  simpa using h

theorem getStreaming_trace_cursor
    (cb : FileEntry → StreamClient → Option Unit → Option Nat)
    (relay : Option Unit) :
    ∀ (es : List FileEntry) (c : StreamClient),
      ∀ p ∈ (getStreaming cb relay c es).2.2,
        p.2.nextEntry = (p.1.Number + 1) % 2 ^ 64 := by
  intro es
  induction es with
  | nil =>
    intro c p hp
    simp [getStreaming] at hp
  | cons e rest ih =>
    intro c p hp
    cases hcb : cb e { c with nextEntry := (e.Number + 1) % 2 ^ 64 } relay with
    | some err =>
      simp only [getStreaming, hcb] at hp
      simp only [List.mem_singleton] at hp
      subst hp
      rfl
    | none =>
      simp only [getStreaming, hcb, List.mem_cons] at hp
      rcases hp with hp | hp
      · subst hp; rfl
      · exact ih _ p hp

/-- C1.  The streaming consumer loop: it stops and returns `(c, none)` only
when the queue prefix is exhausted (still blocked, no callback error); for a
popped entry `e` it first sets `nextEntry = e.Number + 1` (the client handed
to the callback already carries the updated cursor) and then invokes the
registered callback with the entry, the client, and the relay reference; a
callback error terminates the loop, returning that error, and otherwise the
loop continues with the next entry.  Every entry in the processed trace was
seen by the callback with `nextEntry` already equal to its `Number + 1`. -/
theorem getStreaming_loop_spec
    (cb : FileEntry → StreamClient → Option Unit → Option Nat)
    (relay : Option Unit) (c : StreamClient) (e : FileEntry)
    (rest es : List FileEntry) :
    (getStreaming cb relay c [] = (c, none, [])) ∧
    (∀ err, cb e { c with nextEntry := (e.Number + 1) % 2 ^ 64 } relay = some err →
      getStreaming cb relay c (e :: rest) =
        ({ c with nextEntry := (e.Number + 1) % 2 ^ 64 }, some err,
          [(e, { c with nextEntry := (e.Number + 1) % 2 ^ 64 })])) ∧
    (cb e { c with nextEntry := (e.Number + 1) % 2 ^ 64 } relay = none →
      getStreaming cb relay c (e :: rest) =
        ((getStreaming cb relay { c with nextEntry := (e.Number + 1) % 2 ^ 64 } rest).1,
         (getStreaming cb relay { c with nextEntry := (e.Number + 1) % 2 ^ 64 } rest).2.1,
         (e, { c with nextEntry := (e.Number + 1) % 2 ^ 64 }) ::
           (getStreaming cb relay { c with nextEntry := (e.Number + 1) % 2 ^ 64 } rest).2.2)) ∧
    (∀ p ∈ (getStreaming cb relay c es).2.2,
      p.2.nextEntry = (p.1.Number + 1) % 2 ^ 64) := by
  refine ⟨rfl, ?_, ?_, getStreaming_trace_cursor cb relay es c⟩
  · intro err hcb
    simp only [getStreaming]
    rw [hcb]
  · intro hcb
    simp only [getStreaming]
    rw [hcb]

theorem getStreaming_loop_spec_witness :
    getStreaming (fun _ _ _ => some 9) none cDemo [⟨42, 1, 2, []⟩] =
      ({ cDemo with nextEntry := (42 + 1) % 2 ^ 64 }, some 9,
        [(⟨42, 1, 2, []⟩, { cDemo with nextEntry := (42 + 1) % 2 ^ 64 })]) :=
  (getStreaming_loop_spec (fun _ _ _ => some 9) none cDemo ⟨42, 1, 2, []⟩
    [] []).2.1 9 rfl

theorem getStreaming_consecutive_aux
    (cb : FileEntry → StreamClient → Option Unit → Option Nat)
    (relay : Option Unit) :
    ∀ (es : List FileEntry) (c : StreamClient),
      consecutiveFrom c.nextEntry es = true →
      c.nextEntry + es.length < 2 ^ 64 →
      (∀ i (hi : i < (getStreaming cb relay c es).2.2.length),
        ((getStreaming cb relay c es).2.2.get ⟨i, hi⟩).2.nextEntry = c.nextEntry + i + 1 ∧
        ((getStreaming cb relay c es).2.2.get ⟨i, hi⟩).1.Number = c.nextEntry + i) ∧
      (getStreaming cb relay c es).1.nextEntry =
        c.nextEntry + (getStreaming cb relay c es).2.2.length := by
  intro es
  induction es with
  | nil =>
    intro c _ _
    exact ⟨fun i hi => by simp [getStreaming] at hi, by simp [getStreaming]⟩
  | cons e rest ih =>
    intro c h1 h2
    simp only [consecutiveFrom, Bool.and_eq_true, beq_iff_eq] at h1
    obtain ⟨hNum, hrest⟩ := h1
    have hmod : (e.Number + 1) % 2 ^ 64 = c.nextEntry + 1 := by
      rw [hNum]
      exact Nat.mod_eq_of_lt (by simp at h2; omega)
    have hmodN : (e.Number + 1) % 18446744073709551616 = c.nextEntry + 1 := hmod
    cases hcb : cb e { c with nextEntry := (e.Number + 1) % 2 ^ 64 } relay with
    | some err =>
      have hres : getStreaming cb relay c (e :: rest) =
          ({ c with nextEntry := (e.Number + 1) % 2 ^ 64 }, some err,
            [(e, { c with nextEntry := (e.Number + 1) % 2 ^ 64 })]) := by
        simp only [getStreaming]
        rw [hcb]
      rw [hres]
      refine ⟨fun i hi => ?_, by simp [hmod, hmodN]⟩
      simp only [List.length_singleton] at hi
      interval_cases i
      simp [hmod, hmodN, hNum]
      simp at h2
      omega
    | none =>
      have hres : getStreaming cb relay c (e :: rest) =
          ((getStreaming cb relay { c with nextEntry := (e.Number + 1) % 2 ^ 64 } rest).1,
           (getStreaming cb relay { c with nextEntry := (e.Number + 1) % 2 ^ 64 } rest).2.1,
           (e, { c with nextEntry := (e.Number + 1) % 2 ^ 64 }) ::
             (getStreaming cb relay { c with nextEntry := (e.Number + 1) % 2 ^ 64 } rest).2.2) := by
        simp only [getStreaming]
        rw [hcb]
      have hn1 : ({ c with nextEntry := (e.Number + 1) % 2 ^ 64 } :
          StreamClient).nextEntry = c.nextEntry + 1 := hmod
      have ihc := ih { c with nextEntry := (e.Number + 1) % 2 ^ 64 }
        (by rw [hn1]; exact hrest)
        (by rw [hn1]; simp at h2 ⊢; omega)
      obtain ⟨ih1, ih2⟩ := ihc
      rw [hres]
      constructor
      · intro i hi
        cases i with
        | zero =>
          simp [hmod, hmodN, hNum]
          simp at h2
          omega
        | succ j =>
          simp only [List.length_cons, Nat.succ_lt_succ_iff] at hi
          have hj := ih1 j hi
          rw [hn1] at hj
          simpa [Nat.add_assoc, Nat.add_comm, Nat.add_left_comm] using hj
      · rw [ih2, hn1]
        simp [Nat.add_assoc, Nat.add_comm, Nat.add_left_comm]

/-- C2.  When the delivered entries form a single logical stream resumed at
the client's cursor (the i-th popped entry has `Number = nextEntry + i`, as
the server guarantees within one stream) and the cursor does not overflow
uint64, the consumer's `nextEntry` increases by exactly one per delivered
entry — after processing the i-th entry it equals the starting cursor plus
`i + 1`, hence is strictly increasing, and after the whole run it equals the
starting cursor plus the number of processed entries; the callback observes
entries in strictly increasing `Number` order. -/
theorem nextEntry_increments_by_one
    (cb : FileEntry → StreamClient → Option Unit → Option Nat)
    (relay : Option Unit) (c : StreamClient) (es : List FileEntry)
    (h1 : consecutiveFrom c.nextEntry es = true)
    (h2 : c.nextEntry + es.length < 2 ^ 64) :
    (∀ i (hi : i < (getStreaming cb relay c es).2.2.length),
      ((getStreaming cb relay c es).2.2.get ⟨i, hi⟩).2.nextEntry = c.nextEntry + i + 1 ∧
      ((getStreaming cb relay c es).2.2.get ⟨i, hi⟩).1.Number = c.nextEntry + i) ∧
    (getStreaming cb relay c es).1.nextEntry =
      c.nextEntry + (getStreaming cb relay c es).2.2.length :=
  getStreaming_consecutive_aux cb relay es c h1 h2

theorem nextEntry_increments_by_one_witness :
    (getStreaming (fun _ _ _ => none) none cDemo
        [⟨42, 1, 2, []⟩, ⟨43, 1, 2, []⟩]).1.nextEntry =
      cDemo.nextEntry + (getStreaming (fun _ _ _ => none) none cDemo
        [⟨42, 1, 2, []⟩, ⟨43, 1, 2, []⟩]).2.2.length :=
  (nextEntry_increments_by_one (fun _ _ _ => none) none cDemo
    [⟨42, 1, 2, []⟩, ⟨43, 1, 2, []⟩] (by decide) (by decide)).2

/-- C4.  In a dispatcher iteration following a deferred resume, a Result
packet is first pushed onto the result queue and one result is then popped
back from the queue's front as the deferred result.  If the popped result is
non-OK, the iteration closes the connection and sleeps the fixed delay before
continuing (`closedWaitRetry`; the loop head reconnects next iteration), and
the popped result is consumed by the dispatcher — removed from the queue, so
no foreground caller can receive it; in particular right after a reconnect
(empty queue) the freshly received non-OK result itself is consumed and the
queue stays empty.  If the popped result is OK the iteration continues
normally, and without a deferred resume the result is only pushed. -/
theorem readEntriesStep_deferred_result (s : DispatchState) (r : ResultEntry) :
    (∀ rd qrest, s.results ++ [r] = rd :: qrest →
      (rd.errorNum ≠ CmdErrOK →
        readEntriesStep true (Packet.result r) s =
          ({ s with client := closeConnection s.client, results := qrest },
           DispatchAction.closedWaitRetry)) ∧
      (rd.errorNum = CmdErrOK →
        readEntriesStep true (Packet.result r) s =
          ({ s with results := qrest }, DispatchAction.looped))) ∧
    (s.results = [] → r.errorNum ≠ CmdErrOK →
      readEntriesStep true (Packet.result r) s =
        ({ s with client := closeConnection s.client, results := [] },
         DispatchAction.closedWaitRetry)) ∧
    (readEntriesStep false (Packet.result r) s =
      ({ s with results := s.results ++ [r] }, DispatchAction.looped)) := by
  refine ⟨?_, ?_, ?_⟩
  · intro rd qrest hq
    constructor
    · intro hbad
      simp [readEntriesStep, hq, hbad]
    · intro hok
      simp [readEntriesStep, hq, hok]
  · intro hempty hbad
    simp [readEntriesStep, hempty, hbad]
  · simp [readEntriesStep]

theorem readEntriesStep_deferred_result_witness :
    readEntriesStep true (Packet.result ⟨5, [1]⟩) ⟨cDemo, [], [], [], []⟩ =
      ({ (⟨cDemo, [], [], [], []⟩ : DispatchState) with
          client := closeConnection cDemo, results := [] },
       DispatchAction.closedWaitRetry) :=
  (readEntriesStep_deferred_result ⟨cDemo, [], [], [], []⟩ ⟨5, [1]⟩).2.1 rfl
    (by decide)

theorem execCommand_start_no_panic (c : StreamClient) (fe : Nat)
    (env : ExecEnv) (hc : c.conn = some ()) (p : GoPanic) :
    execCommand c CmdStart true fe [] env ≠ Except.error p := by
  intro h
  unfold execCommand sendCmdParams at h
  rw [hc] at h
  cases hs : c.started <;> cases hw0 : env.wo 0 <;> cases hw1 : env.wo 1 <;>
      cases hw2 : env.wo 2 <;>
    simp_all [writeFullUint64_some, writeFullUint32_some, writeFullBytes_some,
      IsACommand, CmdStart]

theorem execCommand_start_isOk (c : StreamClient) (fe : Nat) (env : ExecEnv)
    (hc : c.conn = some ()) :
    ∃ r, execCommand c CmdStart true fe [] env = Except.ok r := by
  cases hres : execCommand c CmdStart true fe [] env with
  | ok r => exact ⟨r, rfl⟩
  | error p => exact absurd hres (execCommand_start_no_panic c fe env hc p)

theorem execCommand_start_deferred_ok (c : StreamClient) (fe : Nat)
    (env : ExecEnv) (r : ExecResult) (hc : c.conn = some ())
    (h : execCommand c CmdStart true fe [] env = Except.ok r)
    (hok : r.err = none) :
    r.client = { c with streaming := true, fromStream := fe } := by
  unfold execCommand sendCmdParams at h
  rw [hc] at h
  cases hs : c.started <;> cases hw0 : env.wo 0 <;> cases hw1 : env.wo 1 <;>
      cases hw2 : env.wo 2 <;>
    simp_all [writeFullUint64_some, writeFullUint32_some, writeFullBytes_some,
      IsACommand, CmdStart] <;>
    (subst h; simp_all)

theorem connectServer_total :
    ∀ (attempts : List (Option DialOk)) (c : StreamClient),
      ∃ o, connectServer c attempts = Except.ok o := by
  intro attempts
  induction attempts with
  | nil =>
    intro c
    by_cases hc : c.connected = true
    · rw [connectServer.eq_def, if_pos hc]
      exact ⟨_, rfl⟩
    · rw [connectServer.eq_def, if_neg hc]
      exact ⟨_, rfl⟩
  | cons a rest ih =>
    intro c
    by_cases hc : c.connected = true
    · rw [connectServer.eq_def, if_pos hc]
      exact ⟨_, rfl⟩
    · cases a with
      | none =>
        obtain ⟨o, ho⟩ := ih c
        rw [connectServer.eq_def, if_neg hc]
        dsimp only
        rw [ho]
        exact ⟨_, rfl⟩
      | some d =>
        by_cases hstr : c.streaming = true
        · obtain ⟨r, hr⟩ := execCommand_start_isOk
            { c with conn := some (), connected := true, ID := d.id } c.nextEntry
            ⟨d.wo, ⟨0, []⟩, emptyHeader, emptyFileEntry⟩ rfl
          rw [connectServer.eq_def, if_neg hc]
          dsimp only
          rw [if_pos hstr, hr]
          dsimp only
          cases hre : r.err with
          | some e =>
            dsimp only
            obtain ⟨o, ho⟩ := ih { r.client with connected := false }
            rw [ho]
            exact ⟨_, rfl⟩
          | none =>
            exact ⟨_, rfl⟩
        · rw [connectServer.eq_def, if_neg hc]
          dsimp only
          rw [if_neg hstr]
          exact ⟨_, rfl⟩

theorem connectServer_result_connected :
    ∀ (attempts : List (Option DialOk)) (c : StreamClient) (o : ConnectOutcome)
      (c' : StreamClient) (b : Bool),
      connectServer c attempts = Except.ok o → o.result = some (c', b) →
      c'.connected = true := by
  intro attempts
  induction attempts with
  | nil =>
    intro c o c' b ho hres
    by_cases hc : c.connected = true
    · rw [connectServer.eq_def, if_pos hc] at ho
      obtain rfl := Except.ok.inj ho
      simp only [Option.some.injEq, Prod.mk.injEq] at hres
      rw [← hres.1]
      exact hc
    · rw [connectServer.eq_def, if_neg hc] at ho
      obtain rfl := Except.ok.inj ho
      simp at hres
  | cons a rest ih =>
    intro c o c' b ho hres
    by_cases hc : c.connected = true
    · rw [connectServer.eq_def, if_pos hc] at ho
      obtain rfl := Except.ok.inj ho
      simp only [Option.some.injEq, Prod.mk.injEq] at hres
      rw [← hres.1]
      exact hc
    · cases a with
      | none =>
        obtain ⟨o2, ho2⟩ := connectServer_total rest c
        rw [connectServer.eq_def, if_neg hc] at ho
        dsimp only at ho
        rw [ho2] at ho
        dsimp only at ho
        obtain rfl := Except.ok.inj ho
        dsimp only at hres
        exact ih c o2 c' b ho2 hres
      | some d =>
        by_cases hstr : c.streaming = true
        · obtain ⟨r, hr⟩ := execCommand_start_isOk
            { c with conn := some (), connected := true, ID := d.id } c.nextEntry
            ⟨d.wo, ⟨0, []⟩, emptyHeader, emptyFileEntry⟩ rfl
          rw [connectServer.eq_def, if_neg hc] at ho
          dsimp only at ho
          rw [if_pos hstr, hr] at ho
          dsimp only at ho
          cases hre : r.err with
          | some e =>
            rw [hre] at ho
            dsimp only at ho
            obtain ⟨o2, ho2⟩ := connectServer_total rest
              { r.client with connected := false }
            rw [ho2] at ho
            dsimp only at ho
            obtain rfl := Except.ok.inj ho
            dsimp only at hres
            exact ih _ o2 c' b ho2 hres
          | none =>
            rw [hre] at ho
            dsimp only at ho
            obtain rfl := Except.ok.inj ho
            simp only [Option.some.injEq, Prod.mk.injEq] at hres
            have hcl := execCommand_start_deferred_ok
              { c with conn := some (), connected := true, ID := d.id }
              c.nextEntry ⟨d.wo, ⟨0, []⟩, emptyHeader, emptyFileEntry⟩ r rfl hr hre
            rw [← hres.1, hcl]
        · rw [connectServer.eq_def, if_neg hc] at ho
          dsimp only at ho
          rw [if_neg hstr] at ho
          obtain rfl := Except.ok.inj ho
          simp only [Option.some.injEq, Prod.mk.injEq] at hres
          rw [← hres.1]

/-- C3.  `connectServer` returns no error value (its Go signature is `bool`;
in the model every run yields `Except.ok`, conjunct 6) and whenever it
returns, the returned client is connected (conjunct 5).  On a successful
dial with `streaming` set it immediately sends the deferred Start command
carrying `fromEntry = nextEntry` (the wire trace is exactly opcode,
stream type, cursor) and returns `true`; with `streaming` unset it returns
`false` having sent nothing; if the resume command's write fails it closes
the fresh connection and retries the remaining attempts after one more
fixed-delay sleep, as it does after a failed dial. -/
theorem connectServer_spec (c : StreamClient) (d : DialOk)
    (rest : List (Option DialOk))
    (hnc : c.connected = false) (hs : c.started = true) :
    (c.streaming = true → (∀ n, d.wo n = true) →
      connectServer c (some d :: rest) =
        Except.ok ⟨some
          ({ c with
              conn := some (), connected := true, ID := d.id,
              streaming := true, fromStream := c.nextEntry }, true),
          [be64 (CmdStart % 2 ^ 64), be64 (c.streamType % 2 ^ 64),
           be64 (c.nextEntry % 2 ^ 64)], 0⟩) ∧
    (c.streaming = false →
      connectServer c (some d :: rest) =
        Except.ok ⟨some
          ({ c with
              conn := some (), connected := true, ID := d.id }, false),
          [], 0⟩) ∧
    (c.streaming = true → d.wo 0 = false →
      ∀ o, connectServer
          { c with
              conn := some (), ID := d.id, connected := false } rest =
            Except.ok o →
        connectServer c (some d :: rest) =
          Except.ok ⟨o.result, o.sent, o.sleeps + 1⟩) ∧
    (∀ o, connectServer c rest = Except.ok o →
      connectServer c (none :: rest) = Except.ok ⟨o.result, o.sent, o.sleeps + 1⟩) ∧
    (∀ (c0 : StreamClient) (attempts : List (Option DialOk))
        (o : ConnectOutcome) (c' : StreamClient) (b : Bool),
      connectServer c0 attempts = Except.ok o → o.result = some (c', b) →
      c'.connected = true) ∧
    (∀ (c0 : StreamClient) (attempts : List (Option DialOk)),
      ∃ o, connectServer c0 attempts = Except.ok o) := by
  have hncP : ¬(c.connected = true) := by simp [hnc]
  refine ⟨?_, ?_, ?_, ?_, ?_, ?_⟩
  · intro hstr hw
    have hexec : execCommand
        { c with
            conn := some (), connected := true, ID := d.id }
        CmdStart true c.nextEntry []
        ⟨d.wo, ⟨0, []⟩, emptyHeader, emptyFileEntry⟩ =
        Except.ok ⟨{ c with
            conn := some (), connected := true, ID := d.id,
            streaming := true, fromStream := c.nextEntry },
          [be64 (CmdStart % 2 ^ 64), be64 (c.streamType % 2 ^ 64),
           be64 (c.nextEntry % 2 ^ 64)],
          emptyHeader, emptyFileEntry, none, 0, 0, 0⟩ := by
      simp [execCommand, sendCmdParams, hs, hw,
        writeFullUint64_some, IsACommand, CmdStart]
    rw [connectServer.eq_def, if_neg hncP]
    dsimp only
    rw [if_pos hstr, hexec]
  · intro hstr
    rw [connectServer.eq_def, if_neg hncP]
    dsimp only
    rw [if_neg (by simp [hstr])]
  · intro hstr hw0 o ho
    have hexec : execCommand
        { c with
            conn := some (), connected := true, ID := d.id }
        CmdStart true c.nextEntry []
        ⟨d.wo, ⟨0, []⟩, emptyHeader, emptyFileEntry⟩ =
        Except.ok ⟨{ c with
            conn := some (), connected := true, ID := d.id },
          [], emptyHeader, emptyFileEntry, some Err.ioError, 0, 0, 0⟩ := by
      simp [execCommand, sendCmdParams, hs, hw0,
        writeFullUint64_some, IsACommand, CmdStart]
    rw [connectServer.eq_def, if_neg hncP]
    dsimp only
    rw [if_pos hstr, hexec]
    dsimp only
    rw [ho]
    simp
  · intro o ho
    rw [connectServer.eq_def, if_neg hncP]
    dsimp only
    rw [ho]
  · exact fun c0 attempts o c' b ho hres =>
      connectServer_result_connected attempts c0 o c' b ho hres
  · exact fun c0 attempts => connectServer_total attempts c0

theorem connectServer_spec_witness :
    connectServer { cDemo with connected := false } [some dOK] =
      Except.ok ⟨some
        ({ { cDemo with connected := false } with
            conn := some (), connected := true, ID := dOK.id,
            streaming := true,
            fromStream := ({ cDemo with connected := false } :
              StreamClient).nextEntry }, true),
        [be64 (CmdStart % 2 ^ 64),
         be64 (({ cDemo with connected := false } :
           StreamClient).streamType % 2 ^ 64),
         be64 (({ cDemo with connected := false } :
           StreamClient).nextEntry % 2 ^ 64)], 0⟩ :=
  (connectServer_spec { cDemo with connected := false } dOK [] rfl rfl).1 rfl
    (fun _ => rfl)

end DataStreamer
